import Mathlib

/-!
Verification of the retrieval and indexing engine of the SU_BOT repository.

The Python sources embedded here:
* `build_index.py` — `chunk_text` (fixed-size overlapping chunker);
* `retriever/engine.py` — `RetrieverQA.preprocess_query`, `retrieve`,
  `calculate_relevance_score`, `extract_best_passage`, `calculate_confidence`,
  `batch_retrieve`, and `initialize_retriever`;
* `retriever/router.py` — `pick_route`.

Texts are modelled as `List Char`; Python floats as `ℚ`; the embedding model
and the FAISS index are external collaborators, modelled as an abstract
search function from a (preprocessed) query and a requested neighbour count
to a list of `(index, raw score)` candidates.
-/

namespace SUBot

/-- Python whitespace characters recognised by `str.strip` / `str.split`
(the ASCII ones; unicode whitespace is out of scope of the corpus). -/
def isPySpace (c : Char) : Bool :=
  c == ' ' || c == '\t' || c == '\n' || c == '\x0d' || c == '\x0b' || c == '\x0c'

/-- Python `str.strip()`: drop leading and trailing whitespace. -/
def pyStrip (l : List Char) : List Char :=
  ((l.dropWhile isPySpace).reverse.dropWhile isPySpace).reverse

/-- Python `str.lower()` (ASCII case folding). -/
def pyLower (l : List Char) : List Char :=
  l.map Char.toLower

/-- Python `str.split()` with no argument: split on runs of whitespace,
discarding empty words. -/
def pySplit (l : List Char) : List (List Char) :=
  (l.splitOnP (isPySpace ·)).filter (fun w => w ≠ [])

/-- Ceiling division on naturals: `ceilDiv a b = ⌈a / b⌉` for `b > 0`. -/
def ceilDiv (a b : Nat) : Nat :=
  (a + b - 1) / b

/-- The chunking loop of `chunk_text` (build_index.py): starting at `start`,
emit `text[start : start+size]` and advance `start` by `size - overlap`
while `start < len(text)`.  The Python `while` loop is given fuel; with
`overlap < size` a fuel of `text.length` is always sufficient
(`chunkFrom_eq_of_fuel` below). -/
def chunkFrom (t : List Char) (size overlap : Nat) : Nat → Nat → List (List Char)
  | 0, _ => []
  | fuel + 1, start =>
    if start < t.length then
      ((t.drop start).take size) :: chunkFrom t size overlap fuel (start + size - overlap)
    else []

/-- `chunk_text` from build_index.py: strip the text; empty text yields no
chunks; otherwise run the chunking loop from offset 0. -/
def chunk_text (text : List Char) (size overlap : Nat) : List (List Char) :=
  let t := pyStrip text
  if t.length = 0 then [] else chunkFrom t size overlap t.length 0

end SUBot

namespace SUBot

/-- Python list membership by substring: `needle in hay` for strings. -/
def pyContains (needle hay : List Char) : Bool :=
  (List.range (hay.length + 1)).any (fun i => (hay.drop i).take needle.length == needle)

/-- Python `' '.join(words)`. -/
def joinSpace (ws : List (List Char)) : List Char :=
  (ws.intersperse " ".data).flatten

/-- The interrogative/auxiliary stop-list of `preprocess_query`
(retriever/engine.py). -/
def question_words : List (List Char) :=
  ["what".data, "who".data, "where".data, "when".data, "why".data, "how".data,
   "is".data, "are".data, "do".data, "does".data, "did".data, "can".data,
   "could".data]

/-- `RetrieverQA.preprocess_query`: lower-case and strip the query, split on
whitespace, drop the stop-list words, and re-join with single spaces; if all
words were dropped, fall back to the lowered, stripped query. -/
def preprocess_query (query : List Char) : List Char :=
  let q := pyStrip (pyLower query)
  let words := pySplit q
  let filtered_words := words.filter (fun w => !(question_words.contains w))
  if filtered_words = [] then q else joinSpace filtered_words

/-- A metadata record of the persisted index (one line of meta.jsonl). -/
structure Meta where
  title : List Char
  url : List Char
  text : List Char
  ty : List Char
deriving DecidableEq, Inhabited

/-- A retrieval hit as produced by `RetrieverQA.retrieve`. -/
structure Hit where
  score : ℚ
  relevance_score : ℚ
  title : List Char
  url : List Char
  text : List Char
  ty : List Char
  length : Nat
deriving DecidableEq

/-- `RetrieverQA.calculate_relevance_score` (retriever/engine.py): a linear
blend of the raw semantic score (weight 0.7), the lexical overlap of the
lower-cased whitespace token sets (weight 0.3, 0 for an empty query set),
and a capped length bonus (weight 0.1). -/
def calculate_relevance_score (query text : List Char) (semantic_score : ℚ) : ℚ :=
  let query_words := (pySplit (pyLower query)).toFinset
  let text_words := (pySplit (pyLower text)).toFinset
  let keyword_overlap : ℚ :=
    if query_words ≠ ∅ then
      ((query_words ∩ text_words).card : ℚ) / (query_words.card : ℚ)
    else 0
  let quality_bonus : ℚ := min 1 ((text.length : ℚ) / 1000) * (1 / 10)
  semantic_score * (7 / 10) + keyword_overlap * (3 / 10) + quality_bonus

/-- The relevance formula exactly as the spec states it (§4.3):
`0.7 * raw + 0.3 * (|Wq ∩ Wt| / |Wq|) + 0.1 * min(1, len(text)/1000)`,
the overlap term being 0 when `Wq` is empty, where `Wq`, `Wt` are the sets of
lower-cased whitespace-split tokens of query and text. -/
def relevance_spec (query text : List Char) (raw : ℚ) : ℚ :=
  7 / 10 * raw
    + 3 / 10 * (if (pySplit (pyLower query)).toFinset = ∅ then 0
        else (((pySplit (pyLower query)).toFinset ∩
                (pySplit (pyLower text)).toFinset).card : ℚ)
          / (((pySplit (pyLower query)).toFinset.card : ℚ)))
    + 1 / 10 * min 1 ((text.length : ℚ) / 1000)

/-- Python `rec.get("title") or rec.get("url", "")`. -/
def hitTitle (m : Meta) : List Char :=
  if m.title = [] then m.url else m.title

/-- The hit dictionary built for one surviving candidate in `retrieve`. -/
def mkHit (query : List Char) (m : Meta) (score : ℚ) : Hit :=
  { score := score
    relevance_score := calculate_relevance_score query m.text score
    title := hitTitle m
    url := m.url
    text := m.text
    ty := m.ty
    length := m.text.length }

/-- The candidate loop of `retrieve`: skip candidates whose index is out of
the metadata range, skip candidates whose raw score is below the 0.1 noise
floor, and build a hit for the rest. -/
def buildHits (query : List Char) (metas : List Meta) : List (Nat × ℚ) → List Hit
  | [] => []
  | (idx, score) :: rest =>
    if metas.length ≤ idx then buildHits query metas rest
    else if score < 1 / 10 then buildHits query metas rest
    else mkHit query (metas.getD idx default) score :: buildHits query metas rest

/-- Sort order of `retrieve`: descending relevance score.  Python's
`list.sort(key=..., reverse=True)` is a stable sort; it is modelled by
`List.insertionSort`, which is stable for this total preorder. -/
def descRel (a b : Hit) : Prop :=
  b.relevance_score ≤ a.relevance_score

instance : DecidableRel descRel := fun a b =>
  inferInstanceAs (Decidable (b.relevance_score ≤ a.relevance_score))

instance : IsTotal Hit descRel :=
  ⟨fun a b => le_total b.relevance_score a.relevance_score⟩

instance : IsTrans Hit descRel :=
  ⟨fun _ _ _ h1 h2 => le_trans h2 h1⟩

/-- `RetrieverQA.retrieve`: preprocess the query, ask the index for
`min(k*3, len(metas))` nearest neighbours (the embedder and FAISS index are
the abstract collaborator `search`), filter and score the candidates, sort
by descending relevance score, and return the first `k`. -/
def retrieve (metas : List Meta) (search : List Char → Nat → List (Nat × ℚ))
    (query : List Char) (k : Nat) : List Hit :=
  (List.insertionSort descRel
    (buildHits query metas
      (search (preprocess_query query) (min (k * 3) metas.length)))).take k

/-- A hit as produced by `RetrieverQA.batch_retrieve` (fewer fields than the
single-query hit, text truncated to 200 characters). -/
structure BatchHit where
  score : ℚ
  title : List Char
  url : List Char
  text : List Char
deriving DecidableEq

/-- Python `text[:200] + "..." if len(text) > 200 else text`. -/
def truncate200 (t : List Char) : List Char :=
  if 200 < t.length then t.take 200 ++ "...".data else t

/-- The hit dictionary built for one candidate in `batch_retrieve`. -/
def mkBatchHit (m : Meta) (score : ℚ) : BatchHit :=
  { score := score
    title := hitTitle m
    url := m.url
    text := truncate200 m.text }

/-- The candidate loop of `batch_retrieve`: only the index bound is checked —
no noise floor, no relevance scoring, no sorting. -/
def buildBatchHits (metas : List Meta) : List (Nat × ℚ) → List BatchHit
  | [] => []
  | (idx, score) :: rest =>
    if idx < metas.length then
      mkBatchHit (metas.getD idx default) score :: buildBatchHits metas rest
    else buildBatchHits metas rest

/-- `RetrieverQA.batch_retrieve`: preprocess every query, search `k`
neighbours per query, and keep every in-range candidate. -/
def batch_retrieve (metas : List Meta) (search : List Char → Nat → List (Nat × ℚ))
    (queries : List (List Char)) (k : Nat) : List (List BatchHit) :=
  (queries.map preprocess_query).map (fun pq => buildBatchHits metas (search pq k))

/-- Python `range(0, stop, step)` for `step ≥ 1`. -/
def pyRange0 (stop step : Nat) : List Nat :=
  (List.range stop).filter (fun i => i % step = 0)

/-- The window-selection loop of `extract_best_passage`: keep the first
window with the strictly highest question-token overlap, starting from
`best_passage = ""`, `best_score = -1`. -/
def bestLoop (question_words : Finset (List Char)) :
    List (List Char) → List Char → Int → List Char × Int
  | [], bp, bs => (bp, bs)
  | p :: ps, bp, bs =>
    let overlap : Int := ((question_words ∩ (pySplit (pyLower p)).toFinset).card : Int)
    if bs < overlap then bestLoop question_words ps p overlap
    else bestLoop question_words ps bp bs

/-- `RetrieverQA.extract_best_passage`: texts no longer than `window_size`
are returned unchanged; otherwise overlapping windows of `window_size`
characters are generated every `window_size / 2` characters, and the first
window with the highest question-token overlap is returned (falling back to
the first `window_size` characters if the best window were empty). -/
def extract_best_passage (question text : List Char) (window_size : Nat) : List Char :=
  if text.length ≤ window_size then text
  else
    let passages := (pyRange0 text.length (window_size / 2)).map
      (fun i => (text.drop i).take window_size)
    let qw := (pySplit (pyLower question)).toFinset
    let best := bestLoop qw passages [] (-1)
    if best.1 ≠ [] then best.1 else text.take window_size

/-- `RetrieverQA.calculate_confidence`: the best span score plus an agreement
boost of 0.05 per accepted prediction, the boost capped at 0.2 and the total
capped at 1.0. -/
def calculate_confidence (qa_score : ℚ) (num_answers : Nat) : ℚ :=
  let base_confidence := qa_score
  let agreement_boost := min (2 / 10) ((num_answers : ℚ) * (5 / 100))
  min 1 (base_confidence + agreement_boost)

/-- The degraded answer payload of the fallback retriever in
`initialize_retriever`. -/
structure AnswerRes where
  answer : Option (List Char)
  snippets : List Hit
  confidence : Option ℚ

/-- The interface of a retriever as used by callers of
`initialize_retriever`. -/
structure Retriever where
  retrieve : List Char → Nat → List Hit
  answer : List Char → Nat → AnswerRes

/-- The `FallbackRetriever` defined inside `initialize_retriever`: empty hit
list, fixed failure message, no snippets. -/
def fallbackRetriever : Retriever where
  retrieve := fun _ _ => []
  answer := fun _ _ =>
    { answer := some "System initialization failed.".data
      snippets := []
      confidence := none }

/-- `initialize_retriever` (retriever/engine.py): a missing index file, a
missing metadata file, or any constructor failure (the abstract `construct`
collaborator) yields the fallback retriever instead of an uncaught
exception; the function is total. -/
def initialize_retriever (faissExists metaExists : Bool)
    (construct : Except (List Char) Retriever) : Retriever :=
  match (if faissExists = false then
      Except.error "FAISS index not found".data
    else if metaExists = false then
      Except.error "Metadata file not found".data
    else construct) with
  | .ok r => r
  | .error _ => fallbackRetriever

/-- The route record of retriever/router.py. -/
structure Route where
  use_local : Bool
  use_web : Bool
  reason : List Char

/-- The domain-hint substrings of retriever/router.py. -/
def SCET_HINTS : List (List Char) :=
  ["scet".data, "sarvajanik".data, "surat".data, "vivaksha".data,
   "jariwala".data, "it department".data, "computer engineering".data,
   "placements".data, "hod".data, "faculty".data]

/-- `pick_route` (retriever/router.py): lower-case the query; a query that
contains a domain hint routes local+web when a local index exists and
web-only otherwise; anything else routes local-if-available plus web. -/
def pick_route (query : List Char) (has_local : Bool) : Route :=
  if SCET_HINTS.any (fun kw => pyContains kw (pyLower query)) then
    if has_local then
      { use_local := true, use_web := true, reason := "SCET query → hybrid".data }
    else
      { use_local := false, use_web := true, reason := "SCET query → web only".data }
  else
    { use_local := has_local, use_web := true, reason := "Default hybrid".data }

/-- With sufficient fuel the chunking loop is the map of the window function
over the `ceilDiv` many start offsets. -/
theorem chunkFrom_eq_of_fuel (t : List Char) (size overlap : Nat)
    (ho : overlap < size) :
    ∀ fuel start, t.length ≤ start + fuel →
      chunkFrom t size overlap fuel start =
        (List.range (ceilDiv (t.length - start) (size - overlap))).map
          (fun i => (t.drop (start + i * (size - overlap))).take size) := by
  intro fuel
  induction fuel with
  | zero =>
    intro start hle
    have h0 : t.length - start = 0 := by omega
    simp [chunkFrom, h0, ceilDiv, Nat.div_eq_of_lt, Nat.sub_lt_iff_lt_add, ho,
      show (0:Nat) + (size - overlap) - 1 < size - overlap by omega]
  | succ fuel ih =>
    intro start hle
    by_cases hs : start < t.length
    · have hd : 0 < size - overlap := by omega
      have hstep : start + size - overlap = start + (size - overlap) := by omega
      have hcount : ceilDiv (t.length - start) (size - overlap) =
          ceilDiv (t.length - (start + (size - overlap))) (size - overlap) + 1 := by
        unfold ceilDiv
        set d := size - overlap with hdd
        set m := t.length - start with hm
        have hm1 : 1 ≤ m := by omega
        by_cases hmd : m ≤ d
        · have h1 : (m + d - 1) / d = 1 := by
            rw [Nat.div_eq_of_lt_le] <;> omega
          have h2 : t.length - (start + d) = 0 := by omega
          rw [h2, h1]
          have h3 : (0 + d - 1) / d = 0 := Nat.div_eq_of_lt (by omega)
          omega
        · have h2 : t.length - (start + d) = m - d := by omega
          rw [h2]
          have h3 : m + d - 1 = (m - d + d - 1) + d := by omega
          rw [h3, Nat.add_div_right _ hd]
      rw [chunkFrom, if_pos hs, hstep, ih (start + (size - overlap)) (by omega),
        hcount, List.range_succ_eq_map]
      simp only [List.map_cons, List.map_map, Nat.zero_mul, Nat.add_zero]
      congr 1
      apply List.map_congr_left
      intro i _
      simp only [Function.comp_apply, Nat.succ_eq_add_one]
      congr 2
      ring
    · have h0 : t.length - start = 0 := by omega
      simp only [chunkFrom, if_neg hs, h0, ceilDiv, Nat.zero_add]
      rw [Nat.div_eq_of_lt (by omega)]
      simp

/-- Normal form of `chunk_text` for valid parameters. -/
theorem chunk_text_eq (text : List Char) (size overlap : Nat) (ho : overlap < size) :
    chunk_text text size overlap =
      (List.range (ceilDiv (pyStrip text).length (size - overlap))).map
        (fun i => ((pyStrip text).drop (i * (size - overlap))).take size) := by
  unfold chunk_text
  by_cases h : (pyStrip text).length = 0
  · simp only [h, if_pos rfl, ceilDiv, Nat.zero_add]
    rw [Nat.div_eq_of_lt (by omega)]
    simp
  · rw [if_neg h, chunkFrom_eq_of_fuel _ _ _ ho _ 0 (by omega)]
    simp

/-- The number of chunks for valid parameters. -/
theorem chunk_text_length (text : List Char) (size overlap : Nat) (ho : overlap < size) :
    (chunk_text text size overlap).length =
      ceilDiv (pyStrip text).length (size - overlap) := by
  rw [chunk_text_eq _ _ _ ho]
  simp

/-- The i-th chunk is the window of `size` characters at offset
`i * (size - overlap)` of the stripped text. -/
theorem chunk_text_getD (text : List Char) (size overlap : Nat) (ho : overlap < size)
    (i : Nat) (hi : i < (chunk_text text size overlap).length) :
    (chunk_text text size overlap).getD i [] =
      ((pyStrip text).drop (i * (size - overlap))).take size := by
  rw [chunk_text_eq _ _ _ ho] at hi ⊢
  rw [List.getD_eq_getElem?_getD, List.getElem?_map]
  simp only [List.length_map, List.length_range] at hi
  simp [List.getElem?_range, hi]

/-- C1: the spec claims `chunk_text` produces `ceil((L - O) / (S - O))` chunks
for stripped text of length `L > 0`.  Counterexample: the text "abc" with
`size = 3`, `overlap = 1` has `L = 3`, and the claimed formula gives
`ceil((3-1)/(3-1)) = 1`, but `chunk_text` produces 2 chunks (the loop keeps
emitting a trailing chunk as long as `start < L`). -/
theorem c1_chunk_count_counterexample :
    (chunk_text "abc".data 3 1).length = 2 ∧
    ceilDiv ((pyStrip "abc".data).length - 1) (3 - 1) = 1 ∧
    (chunk_text "abc".data 3 1).length ≠
      ceilDiv ((pyStrip "abc".data).length - 1) (3 - 1) := by
  decide

/-- C1 (amended): for every text and chunk parameters `size > overlap ≥ 0`,
`chunk_text` returns exactly `ceil(L / (size - overlap))` chunks, where `L`
is the length of the stripped text (0 chunks for empty or whitespace-only
text, since then `L = 0`). -/
theorem c1_chunk_count (text : List Char) (size overlap : Nat) (ho : overlap < size) :
    (chunk_text text size overlap).length =
      ceilDiv (pyStrip text).length (size - overlap) :=
  chunk_text_length text size overlap ho

/-- Witness for C1 (amended) at the concrete input "abc", size 3, overlap 1. -/
theorem c1_chunk_count_witness :
    1 < 3 ∧ (chunk_text "abc".data 3 1).length =
      ceilDiv (pyStrip "abc".data).length (3 - 1) :=
  ⟨by decide, c1_chunk_count "abc".data 3 1 (by decide)⟩

/-- C2: the spec claims every pair of consecutive chunks shares exactly
`overlap` characters, except possibly the pair involving the final chunk.
Counterexample: for the text "abcdefg" with `size = 5`, `overlap = 4` there
are 7 chunks; chunks 3 and 4 are consecutive, chunk 4 is not the final chunk
(index 6 is), yet the region the two chunks share — the part of chunk 3
beyond the first `size - overlap` characters — has length 3, not 4. -/
theorem c2_chunk_overlap_counterexample :
    (chunk_text "abcdefg".data 5 4).length = 7 ∧
    3 + 1 ≠ (chunk_text "abcdefg".data 5 4).length - 1 ∧
    (((chunk_text "abcdefg".data 5 4).getD 3 []).drop (5 - 4)).length = 3 ∧
    (((chunk_text "abcdefg".data 5 4).getD 3 []).drop (5 - 4)).length ≠ 4 := by
  decide

/-- C2 (amended): for every text and valid parameters `size > overlap ≥ 0`,
with `d = size - overlap` and `L` the stripped length: (i) chunk `i` is
`text[i*d : i*d + size]`; (ii) every character offset of the stripped text is
covered by some chunk; (iii) every pair of consecutive chunks whose earlier
chunk is full-length (`i*d + size ≤ L`) shares exactly `overlap` characters —
the last `overlap` characters of chunk `i` are the first `overlap` characters
of chunk `i+1`.  (A truncated non-final chunk — possible only when
`size < 2*overlap - 1` — may share fewer.) -/
theorem c2_chunk_coverage (text : List Char) (size overlap : Nat) (ho : overlap < size) :
    (∀ i, i < (chunk_text text size overlap).length →
        (chunk_text text size overlap).getD i [] =
          ((pyStrip text).drop (i * (size - overlap))).take size) ∧
    (∀ p, p < (pyStrip text).length →
        ∃ i, i < (chunk_text text size overlap).length ∧
          i * (size - overlap) ≤ p ∧ p < i * (size - overlap) + size) ∧
    (∀ i, i + 1 < (chunk_text text size overlap).length →
        i * (size - overlap) + size ≤ (pyStrip text).length →
        ((chunk_text text size overlap).getD i []).drop (size - overlap) =
          ((chunk_text text size overlap).getD (i + 1) []).take overlap ∧
        (((chunk_text text size overlap).getD i []).drop (size - overlap)).length
          = overlap) := by
  set t := pyStrip text with ht
  set d := size - overlap with hd
  have hd0 : 0 < d := by omega
  refine ⟨fun i hi => chunk_text_getD text size overlap ho i hi, ?_, ?_⟩
  · intro p hp
    refine ⟨p / d, ?_, Nat.div_mul_le_self p d, ?_⟩
    · rw [chunk_text_length _ _ _ ho, ← ht, ← hd]
      unfold ceilDiv
      have h1 : t.length + d - 1 = (t.length - 1) + d := by omega
      rw [h1, Nat.add_div_right _ hd0]
      have h2 : p / d ≤ (t.length - 1) / d := Nat.div_le_div_right (by omega)
      omega
    · have h3 := Nat.div_add_mod p d
      have h4 : p % d < d := Nat.mod_lt _ hd0
      have h5 : d * (p / d) = (p / d) * d := Nat.mul_comm _ _
      omega
  · intro i hi hfull
    have hi1 : i < (chunk_text text size overlap).length := by omega
    rw [chunk_text_getD text size overlap ho i hi1,
      chunk_text_getD text size overlap ho (i + 1) hi]
    have e1 : ((t.drop (i * d)).take size).drop d = (t.drop (i * d + d)).take overlap := by
      rw [List.drop_take, List.drop_drop]
      congr 1
      omega
    have e2 : ((t.drop ((i + 1) * d)).take size).take overlap
        = (t.drop (i * d + d)).take overlap := by
      rw [List.take_take]
      congr 1
      · omega
      · congr 1
        ring
    refine ⟨by rw [e1, e2], ?_⟩
    rw [e1, List.length_take, List.length_drop]
    have : overlap ≤ t.length - (i * d + d) := by omega
    omega

/-- Witness for C2 (amended) at the concrete input "abcde", size 3, overlap 1:
offset 4 of the stripped text is covered by some chunk. -/
theorem c2_chunk_coverage_witness :
    1 < 3 ∧ (∃ i, i < (chunk_text "abcde".data 3 1).length ∧
      i * (3 - 1) ≤ 4 ∧ 4 < i * (3 - 1) + 3) :=
  ⟨by decide, (c2_chunk_coverage "abcde".data 3 1 (by decide)).2.1 4 (by decide)⟩

/-- C3: `calculate_relevance_score` computes exactly the spec formula
`0.7*s + 0.3*(|Wq ∩ Wt| / |Wq|) + 0.1*min(1, len(text)/1000)` over the
lower-cased whitespace-split token sets, with overlap term 0 for an empty
query token set. -/
theorem c3_relevance_formula (query text : List Char) (s : ℚ) :
    calculate_relevance_score query text s = relevance_spec query text s := by
  unfold calculate_relevance_score relevance_spec
  by_cases h : (pySplit (pyLower query)).toFinset = (∅ : Finset (List Char))
  · simp only [h, ne_eq, not_true_eq_false, if_false, if_true, ite_true, ite_false]
    ring
  · simp only [h, ne_eq, not_false_eq_true, if_true, if_false, ite_true, ite_false]
    ring

/-- The hit-building loop equals a filter of the candidates by the index
bound and the noise floor, followed by hit construction. -/
theorem buildHits_eq (query : List Char) (metas : List Meta) :
    ∀ cands : List (Nat × ℚ),
      buildHits query metas cands =
        (cands.filter fun c =>
            decide (c.1 < metas.length) && decide ((1:ℚ)/10 ≤ c.2)).map
          (fun c => mkHit query (metas.getD c.1 default) c.2) := by
  intro cands
  induction cands with
  | nil => rfl
  | cons c rest ih =>
    obtain ⟨idx, score⟩ := c
    by_cases h1 : metas.length ≤ idx
    · have h1' : ¬ idx < metas.length := not_lt.mpr h1
      have hcond : (decide (idx < metas.length) && decide ((1:ℚ)/10 ≤ score)) = false := by
        rw [decide_eq_false h1', Bool.false_and]
      simp only [buildHits, if_pos h1, List.filter_cons, hcond]
      simpa using ih
    · by_cases h2 : score < 1 / 10
      · have h2' : ¬ (1:ℚ)/10 ≤ score := not_le.mpr h2
        have hcond : (decide (idx < metas.length) && decide ((1:ℚ)/10 ≤ score)) = false := by
          rw [decide_eq_false h2', Bool.and_false]
        simp only [buildHits, if_neg h1, if_pos h2, List.filter_cons, hcond]
        simpa using ih
      · have hcond : (decide (idx < metas.length) && decide ((1:ℚ)/10 ≤ score)) = true := by
          rw [decide_eq_true (not_le.mp h1), decide_eq_true (not_lt.mp h2), Bool.and_self]
        simp only [buildHits, if_neg h1, if_neg h2, List.filter_cons, hcond]
        simp only [if_true, List.map_cons, ih]

/-- C4: no hit returned by `retrieve` has raw similarity below the 0.1 noise
floor, and the list of hits entering the ranking step is exactly the
candidate list with every below-floor or out-of-range candidate discarded. -/
theorem c4_noise_floor (metas : List Meta)
    (search : List Char → Nat → List (Nat × ℚ)) (query : List Char) (k : Nat) :
    (∀ h ∈ retrieve metas search query k, (1:ℚ)/10 ≤ h.score) ∧
    buildHits query metas (search (preprocess_query query) (min (k * 3) metas.length)) =
      ((search (preprocess_query query) (min (k * 3) metas.length)).filter fun c =>
          decide (c.1 < metas.length) && decide ((1:ℚ)/10 ≤ c.2)).map
        (fun c => mkHit query (metas.getD c.1 default) c.2) := by
  refine ⟨?_, buildHits_eq query metas _⟩
  intro h hmem
  unfold retrieve at hmem
  have h1 : h ∈ List.insertionSort descRel
      (buildHits query metas
        (search (preprocess_query query) (min (k * 3) metas.length))) :=
    List.mem_of_mem_take hmem
  have h2 : h ∈ buildHits query metas
      (search (preprocess_query query) (min (k * 3) metas.length)) :=
    (List.mem_insertionSort descRel).1 h1
  rw [buildHits_eq] at h2
  obtain ⟨c, hc, hch⟩ := List.mem_map.1 h2
  have hscore := (List.mem_filter.1 hc).2
  rw [Bool.and_eq_true, decide_eq_true_eq, decide_eq_true_eq] at hscore
  rw [← hch]
  exact hscore.2

/-- Witness for C4 at a concrete one-document index. -/
theorem c4_noise_floor_witness :
    mkHit "hello".data ⟨"t".data, "u".data, "hello".data, "html".data⟩ (1/2) ∈
      retrieve [⟨"t".data, "u".data, "hello".data, "html".data⟩]
        (fun _ _ => [(0, 1/2)]) "hello".data 1 ∧
    (1:ℚ)/10 ≤
      (mkHit "hello".data ⟨"t".data, "u".data, "hello".data, "html".data⟩ (1/2)).score := by
  have hr : retrieve [⟨"t".data, "u".data, "hello".data, "html".data⟩]
      (fun _ _ => [(0, 1/2)]) "hello".data 1
      = [mkHit "hello".data ⟨"t".data, "u".data, "hello".data, "html".data⟩ (1/2)] := by
    simp only [retrieve]
    have hb : buildHits "hello".data [⟨"t".data, "u".data, "hello".data, "html".data⟩]
        [(0, (1:ℚ)/2)]
        = [mkHit "hello".data ⟨"t".data, "u".data, "hello".data, "html".data⟩ (1/2)] := by
      unfold buildHits
      rw [if_neg (by decide :
            ¬ ([(⟨"t".data, "u".data, "hello".data, "html".data⟩ : Meta)].length ≤ 0)),
        if_neg (by norm_num : ¬ ((1:ℚ)/2 < 1/10))]
      rfl
    rw [hb]
    rfl
  have hmem : mkHit "hello".data ⟨"t".data, "u".data, "hello".data, "html".data⟩ (1/2) ∈
      retrieve [⟨"t".data, "u".data, "hello".data, "html".data⟩]
        (fun _ _ => [(0, 1/2)]) "hello".data 1 := by
    rw [hr]
    exact List.mem_singleton.mpr rfl
  exact ⟨hmem,
    (c4_noise_floor [⟨"t".data, "u".data, "hello".data, "html".data⟩]
      (fun _ _ => [(0, 1/2)]) "hello".data 1).1 _ hmem⟩

/-- C5: the spec claims the hits of `retrieve` are ordered by descending raw
similarity score.  Counterexample: a two-document index where the raw scores
are 0.5 and 0.52, but the 0.5 document matches the query word "zebra" — its
composite relevance score (0.6505) beats the other document's (0.3643), so
the returned order has raw scores [0.5, 0.52], not descending. -/
theorem c5_raw_order_counterexample :
    ¬ List.Sorted (fun a b : Hit => b.score ≤ a.score)
      (retrieve [⟨"t".data, "u".data, "zebra".data, "html".data⟩,
                 ⟨"t".data, "u".data, "qqq".data, "html".data⟩]
        (fun _ _ => [(0, 1/2), (1, 13/25)]) "zebra".data 2) := by
  have hcmp : descRel
      (mkHit "zebra".data ⟨"t".data, "u".data, "zebra".data, "html".data⟩ (1/2))
      (mkHit "zebra".data ⟨"t".data, "u".data, "qqq".data, "html".data⟩ (13/25)) := by
    show calculate_relevance_score "zebra".data "qqq".data (13/25) ≤
      calculate_relevance_score "zebra".data "zebra".data (1/2)
    unfold calculate_relevance_score
    dsimp only
    rw [if_pos (by decide :
          (pySplit (pyLower "zebra".data)).toFinset ≠ (∅ : Finset (List Char))),
      if_pos (by decide :
          (pySplit (pyLower "zebra".data)).toFinset ≠ (∅ : Finset (List Char)))]
    rw [(by decide : ((pySplit (pyLower "zebra".data)).toFinset ∩
          (pySplit (pyLower "qqq".data)).toFinset).card = 0),
      (by decide : ((pySplit (pyLower "zebra".data)).toFinset ∩
          (pySplit (pyLower "zebra".data)).toFinset).card = 1),
      (by decide : ((pySplit (pyLower "zebra".data)).toFinset).card = 1),
      (by decide : ("qqq".data).length = 3),
      (by decide : ("zebra".data).length = 5)]
    push_cast
    rw [min_eq_right (by norm_num : ((3:ℚ))/1000 ≤ 1),
      min_eq_right (by norm_num : ((5:ℚ))/1000 ≤ 1)]
    norm_num
  have hb : buildHits "zebra".data
      [⟨"t".data, "u".data, "zebra".data, "html".data⟩,
       ⟨"t".data, "u".data, "qqq".data, "html".data⟩]
      [(0, (1:ℚ)/2), (1, 13/25)]
      = [mkHit "zebra".data ⟨"t".data, "u".data, "zebra".data, "html".data⟩ (1/2),
         mkHit "zebra".data ⟨"t".data, "u".data, "qqq".data, "html".data⟩ (13/25)] := by
    unfold buildHits
    rw [if_neg (by decide : ¬ ([(⟨"t".data, "u".data, "zebra".data, "html".data⟩ : Meta),
          ⟨"t".data, "u".data, "qqq".data, "html".data⟩].length ≤ 0)),
      if_neg (by norm_num : ¬ ((1:ℚ)/2 < 1/10))]
    unfold buildHits
    rw [if_neg (by decide : ¬ ([(⟨"t".data, "u".data, "zebra".data, "html".data⟩ : Meta),
          ⟨"t".data, "u".data, "qqq".data, "html".data⟩].length ≤ 1)),
      if_neg (by norm_num : ¬ ((13:ℚ)/25 < 1/10))]
    rfl
  have hret : retrieve [⟨"t".data, "u".data, "zebra".data, "html".data⟩,
        ⟨"t".data, "u".data, "qqq".data, "html".data⟩]
      (fun _ _ => [(0, 1/2), (1, 13/25)]) "zebra".data 2
      = [mkHit "zebra".data ⟨"t".data, "u".data, "zebra".data, "html".data⟩ (1/2),
         mkHit "zebra".data ⟨"t".data, "u".data, "qqq".data, "html".data⟩ (13/25)] := by
    simp only [retrieve]
    rw [hb]
    simp only [List.insertionSort, List.orderedInsert, if_pos hcmp]
    rfl
  rw [hret]
  intro hs
  have h1 := (List.sorted_cons.mp hs).1 _ (List.mem_singleton.mpr rfl)
  have h2 : (13:ℚ)/25 ≤ 1/2 := h1
  norm_num at h2

/-- C5 (amended): `retrieve` returns at most `k` hits, ordered by descending
composite relevance score (`relevance_score`), not by descending raw
similarity score. -/
theorem c5_order_by_relevance (metas : List Meta)
    (search : List Char → Nat → List (Nat × ℚ)) (query : List Char) (k : Nat) :
    (retrieve metas search query k).length ≤ k ∧
    List.Sorted descRel (retrieve metas search query k) := by
  constructor
  · exact List.length_take_le _ _
  · exact List.Pairwise.sublist (List.take_sublist _ _)
      (List.sorted_insertionSort descRel _)

/-- C7: the spec claims `batch_retrieve` produces the same per-query results
as the single-query `retrieve`.  Counterexample: a one-document index whose
sole candidate has raw score 0.05 — `retrieve` discards it at the 0.1 noise
floor and returns no hits, while `batch_retrieve` (which applies no noise
floor) returns it. -/
theorem c7_batch_counterexample :
    ((batch_retrieve [⟨"t".data, "u".data, "x".data, "html".data⟩]
        (fun _ _ => [(0, 1/20)]) ["q".data] 1).getD 0 []).length = 1 ∧
    (retrieve [⟨"t".data, "u".data, "x".data, "html".data⟩]
        (fun _ _ => [(0, 1/20)]) "q".data 1).length = 0 := by
  constructor
  · decide
  · simp only [retrieve]
    have hb : buildHits "q".data [⟨"t".data, "u".data, "x".data, "html".data⟩]
        [(0, (1:ℚ)/20)] = [] := by
      unfold buildHits
      rw [if_neg (by decide :
            ¬ ([(⟨"t".data, "u".data, "x".data, "html".data⟩ : Meta)].length ≤ 0)),
        if_pos (by norm_num : (1:ℚ)/20 < 1/10)]
      rfl
    rw [hb]
    rfl

/-- C7 (amended): `batch_retrieve` processes its queries independently —
each query contributes exactly the hits that `batch_retrieve` would produce
for that query alone — but the per-query pipeline differs from the
single-query `retrieve`: it searches only `k` (not `3k`) candidates, applies
no 0.1 noise floor, computes no relevance score and does not re-rank, and
truncates hit text to 200 characters. -/
theorem c7_batch_independent (metas : List Meta)
    (search : List Char → Nat → List (Nat × ℚ))
    (queries : List (List Char)) (k : Nat) :
    batch_retrieve metas search queries k =
      queries.map (fun q => (batch_retrieve metas search [q] k).getD 0 []) := by
  unfold batch_retrieve
  simp [List.map_map, Function.comp]

/-- C6: the spec claims the span returned by `extract_best_passage` on long
text is exactly `window_size` characters, except possibly when it is the
last window.  Counterexample: question "z", text "a b z" (length 5),
window size 4: the windows start at offsets 0, 2 and 4, the returned span is
"b z" (the window at offset 2, length 3 ≠ 4), and the last window is "z"
(offset 4) — the returned short span is not the last window. -/
theorem c6_passage_counterexample :
    extract_best_passage "z".data "a b z".data 4 = "b z".data ∧
    (extract_best_passage "z".data "a b z".data 4).length ≠ 4 ∧
    extract_best_passage "z".data "a b z".data 4 ≠ (("a b z".data).drop 4).take 4 := by
  decide

/-- The best-window loop returns either its accumulator or one of the
windows it scanned. -/
theorem bestLoop_mem (qw : Finset (List Char)) :
    ∀ (ps : List (List Char)) (bp : List Char) (bs : Int),
      (bestLoop qw ps bp bs).1 = bp ∨ (bestLoop qw ps bp bs).1 ∈ ps := by
  intro ps
  induction ps with
  | nil => intro bp bs; left; rfl
  | cons p ps ih =>
    intro bp bs
    unfold bestLoop
    dsimp only
    by_cases h : bs < ((qw ∩ (pySplit (pyLower p)).toFinset).card : Int)
    · rw [if_pos h]
      rcases ih p _ with h1 | h1
      · right; rw [h1]; exact List.mem_cons_self _ _
      · right; exact List.mem_cons_of_mem _ h1
    · rw [if_neg h]
      rcases ih bp bs with h1 | h1
      · left; exact h1
      · right; exact List.mem_cons_of_mem _ h1

/-- Started from `best_score = -1`, the best-window loop always returns one
of the scanned windows. -/
theorem bestLoop_result_mem (qw : Finset (List Char)) (p : List Char)
    (ps : List (List Char)) :
    (bestLoop qw (p :: ps) [] (-1)).1 ∈ p :: ps := by
  unfold bestLoop
  dsimp only
  rw [if_pos (lt_of_lt_of_le (show (-1:Int) < 0 by norm_num)
    (Int.natCast_nonneg _))]
  rcases bestLoop_mem qw ps p _ with h | h
  · rw [h]; exact List.mem_cons_self _ _
  · exact List.mem_cons_of_mem _ h

/-- C6 (amended): for text no longer than `window_size` the text is returned
unchanged; for longer text the returned span is one of the windows generated
at the offsets `0, w/2, w, ...`, and it is exactly `window_size` characters
long except possibly when its start offset lies within `window_size` of the
end of the text (the trailing windows, of which there can be more than one,
may be short — not only the last one). -/
theorem c6_passage_window (question text : List Char) (w : Nat) (hw : 2 ≤ w) :
    (text.length ≤ w → extract_best_passage question text w = text) ∧
    (w < text.length →
      ∃ s ∈ pyRange0 text.length (w / 2),
        extract_best_passage question text w = (text.drop s).take w ∧
        (s + w ≤ text.length → (extract_best_passage question text w).length = w)) := by
  constructor
  · intro h
    unfold extract_best_passage
    rw [if_pos h]
  · intro h
    have h0 : 0 ∈ pyRange0 text.length (w / 2) := by
      unfold pyRange0
      rw [List.mem_filter]
      exact ⟨List.mem_range.mpr (by omega), by simp⟩
    have hne : (pyRange0 text.length (w / 2)).map
        (fun i => (text.drop i).take w) ≠ [] := by
      intro hcontra
      rw [List.map_eq_nil_iff] at hcontra
      rw [hcontra] at h0
      exact List.not_mem_nil _ h0
    obtain ⟨p0, ps, hcons⟩ := List.exists_cons_of_ne_nil hne
    have hmem : (bestLoop ((pySplit (pyLower question)).toFinset)
        ((pyRange0 text.length (w / 2)).map (fun i => (text.drop i).take w))
        [] (-1)).1 ∈
        (pyRange0 text.length (w / 2)).map (fun i => (text.drop i).take w) := by
      rw [hcons]
      exact bestLoop_result_mem _ p0 ps
    obtain ⟨s, hs, heq⟩ := List.mem_map.1 hmem
    have hslen : s < text.length := by
      have := (List.mem_filter.1 (by unfold pyRange0 at hs; exact hs)).1
      exact List.mem_range.mp this
    have hwne : (text.drop s).take w ≠ [] := by
      intro hc
      have hlen : ((text.drop s).take w).length = 0 := by rw [hc]; rfl
      rw [List.length_take, List.length_drop] at hlen
      omega
    have hres : extract_best_passage question text w = (text.drop s).take w := by
      unfold extract_best_passage
      rw [if_neg (not_le.mpr h)]
      dsimp only
      rw [if_pos (heq ▸ hwne)]
      exact heq.symm
    refine ⟨s, hs, hres, fun hfull => ?_⟩
    rw [hres, List.length_take, List.length_drop]
    omega

/-- Witness for C6 (amended) at question "z", text "a b z", window size 4. -/
theorem c6_passage_window_witness :
    2 ≤ 4 ∧ (4 < ("a b z".data).length →
      ∃ s ∈ pyRange0 ("a b z".data).length (4 / 2),
        extract_best_passage "z".data "a b z".data 4 = (("a b z".data).drop s).take 4 ∧
        (s + 4 ≤ ("a b z".data).length →
          (extract_best_passage "z".data "a b z".data 4).length = 4)) :=
  ⟨by decide, (c6_passage_window "z".data "a b z".data 4 (by decide)).2⟩

/-- C8: `calculate_confidence` is monotone non-decreasing in both the best
model score and the number of accepted predictions, and never exceeds 1. -/
theorem c8_confidence_monotone (s s' : ℚ) (n n' : Nat)
    (hs : s ≤ s') (hn : n ≤ n') :
    calculate_confidence s n ≤ calculate_confidence s' n' ∧
    calculate_confidence s n ≤ 1 := by
  unfold calculate_confidence
  refine ⟨min_le_min le_rfl (add_le_add hs (min_le_min le_rfl ?_)), min_le_left _ _⟩
  have hcast : (n : ℚ) ≤ (n' : ℚ) := by exact_mod_cast hn
  exact mul_le_mul_of_nonneg_right hcast (by norm_num)

/-- Witness for C8 at score 1/2 → 3/4 and 1 → 2 accepted predictions. -/
theorem c8_confidence_monotone_witness :
    (1:ℚ)/2 ≤ 3/4 ∧ (1:Nat) ≤ 2 ∧
    (calculate_confidence (1/2) 1 ≤ calculate_confidence (3/4) 2 ∧
      calculate_confidence (1/2) 1 ≤ 1) :=
  ⟨by norm_num, by norm_num,
    c8_confidence_monotone (1/2) (3/4) 1 2 (by norm_num) (by norm_num)⟩

/-- C9: when the index file or the metadata file is missing,
`initialize_retriever` yields the fallback retriever (it is a total function,
so no exception escapes), whose `retrieve` always returns the empty hit list
and whose `answer` always returns a payload with no snippets. -/
theorem c9_fallback (fe me : Bool) (construct : Except (List Char) Retriever)
    (q q' : List Char) (k k' : Nat) (h : fe = false ∨ me = false) :
    initialize_retriever fe me construct = fallbackRetriever ∧
    (initialize_retriever fe me construct).retrieve q k = [] ∧
    ((initialize_retriever fe me construct).answer q' k').snippets = [] := by
  have heq : initialize_retriever fe me construct = fallbackRetriever := by
    rcases h with h | h <;> subst h
    · rfl
    · cases fe
      · rfl
      · rfl
  exact ⟨heq, by rw [heq]; rfl, by rw [heq]; rfl⟩

/-- Witness for C9 with a missing index file. -/
theorem c9_fallback_witness :
    (false = false ∨ true = false) ∧
    (initialize_retriever false true (Except.error []) = fallbackRetriever ∧
     (initialize_retriever false true (Except.error [])).retrieve "q".data 3 = [] ∧
     ((initialize_retriever false true (Except.error [])).answer "a".data 2).snippets
       = []) :=
  ⟨Or.inl rfl,
    c9_fallback false true (Except.error []) "q".data "a".data 3 2 (Or.inl rfl)⟩

/-- C10: `pick_route` sets `use_web := true` on every branch — no query and
no local-index state ever disables the web branch of the router. -/
theorem c10_always_web (query : List Char) (has_local : Bool) :
    (pick_route query has_local).use_web = true := by
  unfold pick_route
  split
  · split <;> rfl
  · rfl

end SUBot
